import Mathlib

set_option maxRecDepth 100000

/-!
Verification of the signal aggregation and differential scoring pipeline of
the public-mood-radar repository. JavaScript strings are modelled by Lean
strings (lists of characters), JavaScript numbers by rationals where division
occurs and by integers or naturals elsewhere, and the Math.round function by
the floor of the argument plus one half.
-/

/-- The characters removed by the JavaScript String.prototype.trim method
(ASCII whitespace as it occurs in this code base). -/
def jsIsWs (c : Char) : Bool :=
  c = ' ' || c = '\t' || c = '\n' || c = '\r' || c = '\x0b' || c = '\x0c'

/-- Trim on the character list: drop whitespace from both ends. -/
def jsTrimList (l : List Char) : List Char :=
  ((l.dropWhile jsIsWs).reverse.dropWhile jsIsWs).reverse

/-- Model of the JavaScript trim method. -/
def jsTrim (s : String) : String :=
  String.mk (jsTrimList s.data)

/-- Model of the JavaScript slice(0, n) on strings: the first n characters. -/
def jsTake (s : String) (n : Nat) : String :=
  String.mk (s.data.take n)

/-- Model of JavaScript Math.round on a rational: floor of the value plus one
half. -/
def jsRound (q : ℚ) : ℤ :=
  ⌊q + 1/2⌋

/-- The Snippet record of src/lib/models.ts: one retrieved piece of public
text. The Signal type of the streaming route has the same four fields. -/
structure Snippet where
  title : String
  snippet : String
  url : String
  publishedAt : String
deriving DecidableEq

/-- truncate from src/pages/api/reason.ts lines 50 to 53: a value within the
limit is returned unchanged; otherwise the first limit characters are kept
and the result is trimmed. -/
def truncate (value : String) (limit : Nat) : String :=
  if value.length ≤ limit then value else jsTrim (jsTake value limit)

def MAX_SNIPPET_CHARS : Nat := 800

def MAX_TITLE_CHARS : Nat := 160

def MAX_TOTAL_CHARS : Nat := 12000

/-- The per-snippet capping step inside enforceSnippetBudget: title capped at
MAX_TITLE_CHARS, body capped at MAX_SNIPPET_CHARS. -/
def capSnippet (s : Snippet) : Snippet :=
  { s with
    title := truncate s.title MAX_TITLE_CHARS
    snippet := truncate s.snippet MAX_SNIPPET_CHARS }

/-- The capped size of one snippet: capped title length plus capped body
length. -/
def snippetSize (s : Snippet) : Nat :=
  (capSnippet s).title.length + (capSnippet s).snippet.length

/-- The forEach loop of enforceSnippetBudget (src/pages/api/reason.ts lines
55 to 70), with the mutable totalChars made an explicit argument. A snippet
whose capped size would push the running total past MAX_TOTAL_CHARS is
skipped (the JavaScript return inside forEach skips only that iteration) and
its size is not added to the total; the loop then continues with the
remaining snippets. -/
def enforceSnippetBudgetAux (totalChars : Nat) : List Snippet → List Snippet
  | [] => []
  | s :: rest =>
    let next := capSnippet s
    let size := next.title.length + next.snippet.length
    if MAX_TOTAL_CHARS < totalChars + size then
      enforceSnippetBudgetAux totalChars rest
    else
      next :: enforceSnippetBudgetAux (totalChars + size) rest

/-- enforceSnippetBudget from src/pages/api/reason.ts lines 55 to 70 (the
same function appears in src/app/api/reason/route.ts). -/
def enforceSnippetBudget (snippets : List Snippet) : List Snippet :=
  enforceSnippetBudgetAux 0 snippets

/-- Modelled from the spec sentence of section 6: signals are included in
original order until the cumulative cap would be exceeded, then the rest are
excluded entirely. Used only for a refinement comparison with the source
function above. -/
def enforceSnippetBudgetSpecAux (totalChars : Nat) : List Snippet → List Snippet
  | [] => []
  | s :: rest =>
    let next := capSnippet s
    let size := next.title.length + next.snippet.length
    if MAX_TOTAL_CHARS < totalChars + size then
      []
    else
      next :: enforceSnippetBudgetSpecAux (totalChars + size) rest

/-- The spec-worded budget function: stop at the first over-budget snippet. -/
def enforceSnippetBudgetSpec (snippets : List Snippet) : List Snippet :=
  enforceSnippetBudgetSpecAux 0 snippets

/-- scoreRecency from src/lib/utils.ts lines 22 to 30. The argument is a
day count or null (modelled as an Option). -/
def scoreRecency : Option ℚ → Nat
  | none => 35
  | some days =>
    if days ≤ 1 then 95
    else if days ≤ 3 then 85
    else if days ≤ 7 then 70
    else if days ≤ 14 then 58
    else if days ≤ 30 then 45
    else 30

/-- The anchored regex replace of getHostname: remove a leading "www." from
the hostname, once, only at the start. -/
def stripWww (host : String) : String :=
  if host.data.take 4 = "www.".data then String.mk (host.data.drop 4) else host

/-- getHostname from src/lib/utils.ts lines 5 to 12. The URL constructor of
the platform is not code of this repository; it is modelled as an abstract
total parser returning the hostname on success and nothing when the input
does not parse as a URL. The try/catch of the source becomes a match: on
success the hostname with a leading "www." removed, otherwise the constant
"unknown". -/
def getHostname (parseURLHost : String → Option String) (url : String) : String :=
  match parseURLHost url with
  | some host => stripWww host
  | none => "unknown"

/-- ASCII lower-casing as used by the title normalizer (the titles the code
normalizes are matched by the regex class a-z0-9 afterwards, so ASCII is the
relevant fragment of toLowerCase). -/
def asciiToLower (c : Char) : Char :=
  if 'A' ≤ c ∧ c ≤ 'Z' then Char.ofNat (c.toNat + 32) else c

/-- The regex replace of normalizeTitle: every character that is not a
lower-case letter, digit or whitespace becomes a space. -/
def keepAlnumOrWs (c : Char) : Char :=
  if ('a' ≤ c ∧ c ≤ 'z') ∨ ('0' ≤ c ∧ c ≤ '9') ∨ jsIsWs c then c else ' '

/-- The global regex replace of one or more whitespace characters by a single
space, written with an explicit flag recording whether the previous character
was whitespace. -/
def collapseWsAux : Bool → List Char → List Char
  | _, [] => []
  | prevWs, c :: rest =>
    if jsIsWs c then
      if prevWs then collapseWsAux true rest
      else ' ' :: collapseWsAux true rest
    else c :: collapseWsAux false rest

/-- normalizeTitle from src/unnamed/part_002 lines 25 to 31 (identical copy
in src/app/api/reason/route.ts lines 252 to 258): lower-case, replace every
character outside a-z, 0-9 and whitespace by a space, collapse whitespace
runs to single spaces, trim. -/
def normalizeTitle (title : String) : String :=
  String.mk (jsTrimList (collapseWsAux false
    ((title.data.map asciiToLower).map keepAlnumOrWs)))

/-- The list of adjacent character pairs of a string, each a two-character
slice, in order. -/
def bigramList : List Char → List (List Char)
  | a :: b :: rest => [a, b] :: bigramList (b :: rest)
  | _ => []

/-- bigrams from src/unnamed/part_002 lines 33 to 39: the JavaScript Set of
all two-character slices, modelled as a Finset. -/
def bigrams (value : String) : Finset (List Char) :=
  (bigramList value.data).toFinset

/-- similarityScore from src/unnamed/part_002 lines 41 to 51: 0 when either
string is empty, 1 when the strings are equal, otherwise the Dice
coefficient of the two bigram sets. -/
def similarityScore (a b : String) : ℚ :=
  if a = "" ∨ b = "" then 0
  else if a = b then 1
  else (2 * ((bigrams a) ∩ (bigrams b)).card : ℚ) /
    (((bigrams a).card : ℚ) + ((bigrams b).card : ℚ))

/-- The common body of dedupeSnippets (src/unnamed/part_002 lines 53 to 70)
and dedupeSignals (src/app/api/reason/route.ts lines 280 to 297), with the
mutable seenUrls set and seenTitles array made explicit arguments and the
initial field check abstracted as the reject parameter, the one point where
the two source functions differ. -/
def dedupeAux (reject : Snippet → Bool) (seenUrls seenTitles : List String) :
    List Snippet → List Snippet
  | [] => []
  | item :: rest =>
    if reject item then dedupeAux reject seenUrls seenTitles rest
    else if item.url ∈ seenUrls then dedupeAux reject seenUrls seenTitles rest
    else if seenTitles.any (fun seen =>
        decide ((9 : ℚ)/10 ≤ similarityScore seen (normalizeTitle item.title))) then
      dedupeAux reject seenUrls seenTitles rest
    else
      item :: dedupeAux reject (item.url :: seenUrls)
        (seenTitles ++ [normalizeTitle item.title]) rest

/-- The field check of dedupeSnippets: reject when the normalized title, the
body text or the URL is empty. -/
def rejectSnippet (item : Snippet) : Bool :=
  normalizeTitle item.title == "" || item.snippet == "" || item.url == ""

/-- The field check of dedupeSignals: reject when the normalized title or
the URL is empty (the body text is not checked). -/
def rejectSignal (item : Snippet) : Bool :=
  normalizeTitle item.title == "" || item.url == ""

/-- dedupeSnippets from src/unnamed/part_002 lines 53 to 70. -/
def dedupeSnippets (items : List Snippet) : List Snippet :=
  dedupeAux rejectSnippet [] [] items

/-- dedupeSignals from src/app/api/reason/route.ts lines 280 to 297. -/
def dedupeSignals (items : List Snippet) : List Snippet :=
  dedupeAux rejectSignal [] [] items

/-- The Opportunity record of src/app/api/reason/route.ts lines 190 to 198. -/
structure Opportunity where
  title : String
  description : String
  platformFit : String
  audienceAngle : String
  evidenceIndexes : List ℤ
  newness : String
deriving DecidableEq

/-- The OpportunityGap record of src/app/api/reason/route.ts lines 199 to
203. -/
structure OpportunityGap where
  gap : String
  whyNow : String
  suggestedContent : String
deriving DecidableEq

/-- The OpportunityScore record of src/app/api/reason/route.ts lines 205 to
212. -/
structure OpportunityScore where
  title : String
  score : ℚ
  risk : String
  effort : String
  rationale : String
  recommended : Bool
deriving DecidableEq

/-- The Playbook record of src/app/api/reason/route.ts lines 214 to 221. -/
structure Playbook where
  positioning : String
  contentPillars : List String
  weeklyPlan : List String
  monetizationIdeas : List String
  collaborationTargets : List String
  watchouts : List String
deriving DecidableEq

/-- The stage labels of the StageEvent record (route.ts line 224). -/
inductive Stage where
  | A
  | B
  | C
  | D
  | E
deriving DecidableEq

/-- The status values of the StageEvent record (route.ts line 225). -/
inductive Status where
  | start
  | progress
  | complete
  | error
deriving DecidableEq

/-- The data payloads attached to complete events in the streaming POST
handler, one constructor per stage. -/
inductive StageData where
  | signalsData (signals : List Snippet)
  | normalizedData (normalized : List Snippet)
  | opportunitiesData (opportunities : List Opportunity) (gaps : List OpportunityGap)
  | scoredData (scored : List OpportunityScore)
  | playbookData (playbook : Option Playbook)
deriving DecidableEq

/-- The StageEvent record of src/app/api/reason/route.ts lines 223 to 228. -/
structure StageEvent where
  stage : Stage
  status : Status
  message : Option String
  data : Option StageData
deriving DecidableEq

/-- The parsed result of the stage C external call: the opportunities and
gaps fields, each possibly absent (route.ts lines 469 to 472). -/
structure StageCResult where
  opportunities : Option (List Opportunity)
  gaps : Option (List OpportunityGap)
deriving DecidableEq

/-- The parsed result of the stage D external call (route.ts lines 489 to
491). -/
structure StageDResult where
  scored : Option (List OpportunityScore)
deriving DecidableEq

/-- The parsed result of the stage E external call (route.ts line 505). -/
structure StageEResult where
  playbook : Option Playbook
deriving DecidableEq

/-- The error event emitted by the catch block of the streaming POST handler
(route.ts lines 512 to 518): the stage field is hardcoded to A whichever
stage threw. -/
def pipelineErrorEvent (m : String) : StageEvent :=
  ⟨Stage.A, Status.error, some m, none⟩

/-- The stage B normalization (route.ts lines 451 to 455). -/
def normalizeSignals (signals : List Snippet) : List Snippet :=
  signals.map (fun signal =>
    { signal with title := jsTrim signal.title, snippet := jsTrim signal.snippet })

/-- The event trace of the run closure of the streaming POST handler
(src/app/api/reason/route.ts lines 425 to 526). The external calls
runPerplexity (stage A) and runMino (stages C, D, E) are the suspension
points where the try block can throw; their outcomes are the four Except
arguments, a thrown message or a parsed value. The trace lists the events
sent, in order; the first thrown outcome runs the catch block, which emits
pipelineErrorEvent and closes the stream, so nothing follows it. -/
def pipelineEvents (rA : Except String (List Snippet))
    (rC : Except String StageCResult) (rD : Except String StageDResult)
    (rE : Except String StageEResult) : List StageEvent :=
  ⟨Stage.A, Status.start, some "Stage A: Fetching live signals…", none⟩ ::
  match rA with
  | .error m => [pipelineErrorEvent m]
  | .ok signals =>
    ⟨Stage.A, Status.complete,
      some ("Stage A complete: " ++ toString signals.length ++ " signals"),
      some (StageData.signalsData signals)⟩ ::
    ⟨Stage.B, Status.start, some "Stage B: Normalizing signals…", none⟩ ::
    ⟨Stage.B, Status.complete, some "Stage B complete: Signals normalized",
      some (StageData.normalizedData (normalizeSignals signals))⟩ ::
    ⟨Stage.C, Status.start, some "Stage C: Extracting opportunities…", none⟩ ::
    match rC with
    | .error m => [pipelineErrorEvent m]
    | .ok stageC =>
      ⟨Stage.C, Status.complete, some "Stage C complete: Opportunities extracted",
        some (StageData.opportunitiesData (stageC.opportunities.getD [])
          (stageC.gaps.getD []))⟩ ::
      ⟨Stage.D, Status.start, some "Stage D: Scoring opportunity impact…", none⟩ ::
      match rD with
      | .error m => [pipelineErrorEvent m]
      | .ok stageD =>
        ⟨Stage.D, Status.complete, some "Stage D complete: Scores generated",
          some (StageData.scoredData (stageD.scored.getD []))⟩ ::
        ⟨Stage.E, Status.start, some "Stage E: Generating creator playbook…", none⟩ ::
        match rE with
        | .error m => [pipelineErrorEvent m]
        | .ok stageE =>
          [⟨Stage.E, Status.complete, some "Stage E complete: Playbook ready",
            some (StageData.playbookData stageE.playbook)⟩]

/-- Lookup in an association list with the JavaScript default of 0 for a
missing key (the expression m[k] ?? 0). -/
def lookupQ (m : List (String × ℚ)) (k : String) : ℚ :=
  (m.lookup k).getD 0

/-- Lookup in an integer-valued association list, default 0. -/
def lookupZ (m : List (String × ℤ)) (k : String) : ℤ :=
  (m.lookup k).getD 0

/-- The union of the key sets of the current and previous emotion
distributions (the allEmotions Set of computeAnalysis, src/app/page.tsx
lines 657 to 660). The loop over the Set only accumulates a commutative sum,
so a Finset is a faithful model. -/
def volKeys (cur prev : List (String × ℚ)) : Finset String :=
  (cur.map Prod.fst ++ prev.map Prod.fst).toFinset

/-- The volatility computation of computeAnalysis (src/app/page.tsx lines
651 to 667): sum the absolute differences of the two distributions over the
union of their keys, cap the half-sum at 1, scale to 0..100 and round. -/
def volatility (cur prev : List (String × ℚ)) : ℤ :=
  jsRound (min 1 ((∑ e ∈ volKeys cur prev, |lookupQ cur e - lookupQ prev e|) / 2) * 100)

/-- One step of a stable descending insertion sort by an integer key: the
new element moves left past exactly the elements with a strictly smaller
key. -/
def insertDescBy {α : Type} (key : α → ℤ) (x : α) : List α → List α
  | [] => [x]
  | y :: ys => if key x < key y then y :: insertDescBy key x ys else x :: y :: ys

/-- Stable descending sort by an integer key. The JavaScript sort with
comparator (a, b) => b.k - a.k is stable (ES2019), and a stable descending
sort of a sequence is unique, so this insertion sort is extensionally the
sort used by the source. -/
def sortDescBy {α : Type} (key : α → ℤ) (l : List α) : List α :=
  l.foldr (insertDescBy key) []

/-- The delta entries of the rising-narratives computation (src/app/page.tsx
lines 677 to 682): each current cluster label with its size change against
the previous run, keeping only strictly positive deltas. -/
def deltaEntries (clusterMap prevClusterMap : List (String × ℤ)) : List (String × ℤ) :=
  (clusterMap.map (fun p => (p.1, p.2 - lookupZ prevClusterMap p.1))).filter
    (fun p => 0 < p.2)

/-- The rising-narratives computation of computeAnalysis (src/app/page.tsx
lines 677 to 684): positive-delta labels sorted descending by delta
(stable), top 5. -/
def risingNarratives (clusterMap prevClusterMap : List (String × ℤ)) : List (String × ℤ) :=
  (sortDescBy Prod.snd (deltaEntries clusterMap prevClusterMap)).take 5

/-- The ClassifiedSnippet record of src/lib/models.ts. -/
structure ClassifiedSnippet where
  index : ℤ
  emotion : String
  concern : String
  narrative : String
  cluster : String
deriving DecidableEq

/-- normalizeLabel from src/app/page.tsx lines 549 to 551: trim then
lower-case. -/
def normalizeLabel (value : String) : String :=
  String.mk ((jsTrimList value.data).map asciiToLower)

/-- The grouping key for one classified item: an empty emotion string is
falsy in JavaScript, so it defaults to neutral before normalization
(src/app/page.tsx line 590). -/
def emotionKey (item : ClassifiedSnippet) : String :=
  normalizeLabel (if item.emotion = "" then "neutral" else item.emotion)

/-- One update of the JavaScript accumulator object
acc[key] = (acc[key] ?? 0) + 1, on an insertion-ordered association list
with unique keys, as Object.entries later iterates it. -/
def bumpCount (m : List (String × Nat)) (k : String) : List (String × Nat) :=
  if m.any (fun p => decide (p.1 = k)) then
    m.map (fun p => if p.1 = k then (p.1, p.2 + 1) else p)
  else m ++ [(k, 1)]

/-- The emotionCounts reduce of computeAnalysis (src/app/page.tsx lines 588
to 595). -/
def emotionCounts (items : List ClassifiedSnippet) : List (String × Nat) :=
  items.foldl (fun acc item => bumpCount acc (emotionKey item)) []

/-- The EmotionStats record of src/lib/models.ts. -/
structure EmotionStat where
  emotion : String
  count : Nat
  percentage : ℤ
deriving DecidableEq

/-- The emotionBars computation of computeAnalysis (src/app/page.tsx lines
597 to 604): map each grouped emotion to its count and rounded percentage of
the total (at least 1, guarding the zero-item case), then sort descending by
count. -/
def emotionBars (items : List ClassifiedSnippet) : List EmotionStat :=
  sortDescBy (fun e => (e.count : ℤ))
    ((emotionCounts items).map (fun p =>
      ⟨p.1, p.2, jsRound ((p.2 : ℚ) / (max items.length 1) * 100)⟩))

theorem jsTrimList_length_le (l : List Char) : (jsTrimList l).length ≤ l.length := by
  unfold jsTrimList
  simp only [List.length_reverse]
  calc (List.dropWhile jsIsWs (List.dropWhile jsIsWs l).reverse).length
      ≤ (List.dropWhile jsIsWs l).reverse.length :=
        (List.dropWhile_sublist _).length_le
    _ = (List.dropWhile jsIsWs l).length := List.length_reverse _
    _ ≤ l.length := (List.dropWhile_sublist _).length_le

theorem truncate_length_le (value : String) (limit : Nat) :
    (truncate value limit).length ≤ limit := by
  unfold truncate
  split
  · assumption
  · show (jsTrimList (value.data.take limit)).length ≤ limit
    exact le_trans (jsTrimList_length_le _) (List.length_take_le _ _)

theorem enforceSnippetBudgetAux_sublist (t : Nat) (l : List Snippet) :
    (enforceSnippetBudgetAux t l).Sublist (l.map capSnippet) := by
  induction l generalizing t with
  | nil => simp [enforceSnippetBudgetAux]
  | cons s rest ih =>
    simp only [enforceSnippetBudgetAux, List.map_cons]
    split
    · exact (ih t).cons _
    · exact (ih _).cons₂ _

theorem enforceSnippetBudgetAux_all (l : List Snippet) :
    ∀ t, t + (l.map snippetSize).sum ≤ MAX_TOTAL_CHARS →
      enforceSnippetBudgetAux t l = l.map capSnippet := by
  induction l with
  | nil => intro t _; rfl
  | cons s rest ih =>
    intro t h
    simp only [List.map_cons, List.sum_cons, snippetSize] at h
    simp only [enforceSnippetBudgetAux, List.map_cons]
    rw [if_neg (by omega)]
    exact congrArg _ (ih _ (by omega))

/-- The big snippet of the budget counterexample: title of exactly 160
characters, body of exactly 800 characters, so its capped size is 960. -/
def bigSnip : Snippet :=
  ⟨String.mk (List.replicate 160 'a'), String.mk (List.replicate 800 'a'), "u", ""⟩

/-- A small snippet of capped size 2. -/
def smallSnip : Snippet := ⟨"t", "b", "v", ""⟩

/-- Thirteen big snippets followed by one small snippet; the first twelve
fill the running total to 11520, the thirteenth would push it to 12480 and
is skipped, and the small one still fits at 11522. -/
def budgetCexInput : List Snippet := List.replicate 13 bigSnip ++ [smallSnip]

/-- C1, counterexample: enforceSnippetBudget does not exclude all snippets
after the first one that would exceed the cumulative cap. On budgetCexInput
the thirteenth (over-budget) snippet is skipped but the later small snippet
is still included, so the output has 13 elements, while the spec-worded
stop-at-first-overflow function excludes it and keeps 12. -/
theorem C1_budget_counterexample :
    smallSnip ∈ enforceSnippetBudget budgetCexInput ∧
    smallSnip ∉ enforceSnippetBudgetSpec budgetCexInput ∧
    (enforceSnippetBudget budgetCexInput).length = 13 ∧
    (enforceSnippetBudgetSpec budgetCexInput).length = 12 := by
  refine ⟨by decide, by decide, by decide, by decide⟩

/-- C1, amended: enforceSnippetBudget caps every kept title at 160 and every
kept body at 800 characters and emits capped snippets in original order (a
sublist of the capped input); each snippet whose capped size would push the
running total past 12000 is skipped individually, its size not added, and
later snippets that still fit are included — in particular when the total
capped size fits the budget the output is exactly the capped input. -/
theorem C1_budget_amended (l : List Snippet) :
    (∀ s ∈ enforceSnippetBudget l,
      s.title.length ≤ MAX_TITLE_CHARS ∧ s.snippet.length ≤ MAX_SNIPPET_CHARS) ∧
    (enforceSnippetBudget l).Sublist (l.map capSnippet) ∧
    ((l.map snippetSize).sum ≤ MAX_TOTAL_CHARS →
      enforceSnippetBudget l = l.map capSnippet) := by
  refine ⟨?_, enforceSnippetBudgetAux_sublist 0 l, ?_⟩
  · intro s hs
    have hmem : s ∈ l.map capSnippet :=
      (enforceSnippetBudgetAux_sublist 0 l).subset hs
    rcases List.mem_map.mp hmem with ⟨x, _, rfl⟩
    exact ⟨truncate_length_le _ _, truncate_length_le _ _⟩
  · intro h
    exact enforceSnippetBudgetAux_all l 0 (by simpa using h)

/-- C1, witness for the amended theorem at a concrete input. -/
theorem C1_budget_witness :
    smallSnip.title.length ≤ MAX_TITLE_CHARS ∧
    smallSnip.snippet.length ≤ MAX_SNIPPET_CHARS ∧
    enforceSnippetBudget [smallSnip] = [smallSnip].map capSnippet := by
  have h := C1_budget_amended [smallSnip]
  exact ⟨(h.1 smallSnip (by decide)).1, (h.1 smallSnip (by decide)).2,
    h.2.2 (by decide)⟩

/-- C9: scoreRecency returns 95 at 0 days, 85 at 2 days, 35 at null, 30 at
31 days, and at each bucket edge 1, 3, 7, 14, 30 the more-recent bucket
value 95, 85, 70, 58, 45. -/
theorem C9_scoreRecency_buckets :
    scoreRecency (some 0) = 95 ∧ scoreRecency (some 2) = 85 ∧
    scoreRecency none = 35 ∧ scoreRecency (some 31) = 30 ∧
    scoreRecency (some 1) = 95 ∧ scoreRecency (some 3) = 85 ∧
    scoreRecency (some 7) = 70 ∧ scoreRecency (some 14) = 58 ∧
    scoreRecency (some 30) = 45 := by
  decide

/-- A fixed signal for exercising the pipeline trace. -/
def pipelineSignalX : Snippet := ⟨"t", "b", "http://example.com", "2024-01-01"⟩

/-- C2: when the stage C external call throws (here with the message a
failed Mino request produces), the trace of the streaming handler is A
start, A complete, B start, B complete, C start, then a single error event
whose stage field is A — stage C emits a start event but no terminal event
for stage C, because the catch block hardcodes stage A; nothing is emitted
after the error. -/
theorem C2_error_stage_mislabeled :
    ((pipelineEvents (Except.ok [pipelineSignalX])
        (Except.error "Mino request failed: boom")
        (Except.ok ⟨none⟩) (Except.ok ⟨none⟩)).map
      (fun e => (e.stage, e.status))) =
      [(Stage.A, Status.start), (Stage.A, Status.complete),
       (Stage.B, Status.start), (Stage.B, Status.complete),
       (Stage.C, Status.start), (Stage.A, Status.error)] := by
  decide

/-- C5, counterexample: two equal strings on which similarityScore does not
return 1 — the empty-string check precedes the equality check, so the pair
of empty strings yields 0. -/
theorem C5_similarity_counterexample :
    ("" : String) = "" ∧ similarityScore "" "" = 0 ∧ similarityScore "" "" ≠ 1 := by
  refine ⟨rfl, by decide, by decide⟩

/-- C5, amended: similarityScore returns 1 on equal non-empty strings and 0
whenever either string is empty. -/
theorem C5_similarity_eq_one_or_zero (a b : String) :
    (a = b → a ≠ "" → similarityScore a b = 1) ∧
    ((a = "" ∨ b = "") → similarityScore a b = 0) := by
  constructor
  · rintro rfl hne
    simp [similarityScore, hne]
  · intro h
    simp [similarityScore, h]

/-- C5, witness for the amended theorem at concrete strings. -/
theorem C5_similarity_witness :
    similarityScore "ab" "ab" = 1 ∧ similarityScore "x" "" = 0 :=
  ⟨(C5_similarity_eq_one_or_zero "ab" "ab").1 rfl (by decide),
   (C5_similarity_eq_one_or_zero "x" "").2 (Or.inr rfl)⟩

/-- C10: getHostname is total by construction; when the platform URL parser
yields a hostname the result is that hostname with one leading www. prefix
removed, and when the input does not parse the result is the constant
unknown, so every unparseable URL maps to the single domain unknown. -/
theorem C10_getHostname_total (parse : String → Option String) (url : String) :
    (∀ h, parse url = some h → getHostname parse url = stripWww h) ∧
    (parse url = none → getHostname parse url = "unknown") ∧
    (∀ h, parse url = some h → h.data.take 4 = "www.".data →
      (getHostname parse url).data = h.data.drop 4) ∧
    (∀ h, parse url = some h → h.data.take 4 ≠ "www.".data →
      getHostname parse url = h) := by
  refine ⟨?_, ?_, ?_, ?_⟩
  · intro h hp; simp [getHostname, hp]
  · intro hp; simp [getHostname, hp]
  · intro h hp hw; simp [getHostname, hp, stripWww, hw]
  · intro h hp hw; simp [getHostname, hp, stripWww, hw]

/-- A fixed stand-in for the platform URL parser, used to exercise
getHostname concretely. -/
def parseFixed : String → Option String := fun s =>
  if s = "https://www.example.com/x" then some "www.example.com" else none

/-- C10, witness at concrete inputs: a parseable URL with a www. hostname
and an unparseable string. -/
theorem C10_getHostname_witness :
    getHostname parseFixed "https://www.example.com/x" = "example.com" ∧
    getHostname parseFixed "not a url" = "unknown" := by
  constructor
  · have h := (C10_getHostname_total parseFixed "https://www.example.com/x").1
      "www.example.com" (by decide)
    rw [h]; decide
  · exact (C10_getHostname_total parseFixed "not a url").2.1 (by decide)

theorem dedupeAux_sublist (reject : Snippet → Bool) (l : List Snippet) :
    ∀ urls titles, (dedupeAux reject urls titles l).Sublist l := by
  induction l with
  | nil => intro urls titles; simp [dedupeAux]
  | cons item rest ih =>
    intro urls titles
    simp only [dedupeAux]
    split
    · exact (ih _ _).cons _
    · split
      · exact (ih _ _).cons _
      · split
        · exact (ih _ _).cons _
        · exact (ih _ _).cons₂ _

theorem dedupeAux_idem (reject : Snippet → Bool) (l : List Snippet) :
    ∀ urls titles,
      dedupeAux reject urls titles (dedupeAux reject urls titles l) =
        dedupeAux reject urls titles l := by
  induction l with
  | nil => intro urls titles; rfl
  | cons item rest ih =>
    intro urls titles
    by_cases h1 : reject item = true
    · simp only [dedupeAux, if_pos h1]
      exact ih urls titles
    · by_cases h2 : item.url ∈ urls
      · simp only [dedupeAux, if_neg h1, if_pos h2]
        exact ih urls titles
      · by_cases h3 : (titles.any fun seen =>
            decide ((9 : ℚ)/10 ≤ similarityScore seen (normalizeTitle item.title))) = true
        · simp only [dedupeAux, if_neg h1, if_neg h2, if_pos h3]
          exact ih urls titles
        · simp only [dedupeAux, if_neg h1, if_neg h2, if_neg h3]
          exact congrArg _ (ih _ _)

theorem dedupeAux_mem_reject (reject : Snippet → Bool) (l : List Snippet) :
    ∀ urls titles s, s ∈ dedupeAux reject urls titles l → reject s = false := by
  induction l with
  | nil => intro urls titles s h; simp [dedupeAux] at h
  | cons item rest ih =>
    intro urls titles s hs
    by_cases h1 : reject item = true
    · simp only [dedupeAux, if_pos h1] at hs
      exact ih _ _ _ hs
    · by_cases h2 : item.url ∈ urls
      · simp only [dedupeAux, if_neg h1, if_pos h2] at hs
        exact ih _ _ _ hs
      · by_cases h3 : (titles.any fun seen =>
            decide ((9 : ℚ)/10 ≤ similarityScore seen (normalizeTitle item.title))) = true
        · simp only [dedupeAux, if_neg h1, if_neg h2, if_pos h3] at hs
          exact ih _ _ _ hs
        · simp only [dedupeAux, if_neg h1, if_neg h2, if_neg h3, List.mem_cons] at hs
          rcases hs with rfl | hs
          · rw [Bool.not_eq_true] at h1
            exact h1
          · exact ih _ _ _ hs

/-- C3: both dedup functions are idempotent, and each output is a sublist of
the input, so first-seen order is preserved. -/
theorem C3_dedupe_idempotent (l : List Snippet) :
    dedupeSnippets (dedupeSnippets l) = dedupeSnippets l ∧
    dedupeSignals (dedupeSignals l) = dedupeSignals l ∧
    (dedupeSnippets l).Sublist l ∧ (dedupeSignals l).Sublist l :=
  ⟨dedupeAux_idem rejectSnippet l [] [], dedupeAux_idem rejectSignal l [] [],
   dedupeAux_sublist rejectSnippet l [] [], dedupeAux_sublist rejectSignal l [] []⟩

/-- C4, counterexample: dedupeSignals keeps a signal whose body text is
empty — its field check looks only at the normalized title and the URL, so
the claim that the dedup engine rejects signals with empty body text fails
for dedupeSignals. -/
theorem C4_dedupe_counterexample :
    dedupeSignals [⟨"title", "", "http://u", ""⟩] = [⟨"title", "", "http://u", ""⟩] ∧
    (⟨"title", "", "http://u", ""⟩ : Snippet).snippet = "" := by
  exact ⟨by decide, rfl⟩

/-- C4, amended: dedupeSnippets rejects any signal whose normalized title,
body text or URL is empty, so all its output signals have the three fields
non-empty; dedupeSignals checks only the normalized title and the URL, so
its output signals have those two non-empty but may have an empty body. -/
theorem C4_dedupe_field_checks (l : List Snippet) :
    (∀ s ∈ dedupeSnippets l,
      normalizeTitle s.title ≠ "" ∧ s.snippet ≠ "" ∧ s.url ≠ "") ∧
    (∀ s ∈ dedupeSignals l, normalizeTitle s.title ≠ "" ∧ s.url ≠ "") := by
  constructor
  · intro s hs
    have h := dedupeAux_mem_reject rejectSnippet l [] [] s hs
    simpa [rejectSnippet, and_assoc] using h
  · intro s hs
    have h := dedupeAux_mem_reject rejectSignal l [] [] s hs
    simpa [rejectSignal] using h

/-- C4, witness for the amended theorem at a concrete input. -/
theorem C4_dedupe_witness :
    normalizeTitle (⟨"Hello", "body", "http://a", ""⟩ : Snippet).title ≠ "" ∧
    (⟨"Hello", "body", "http://a", ""⟩ : Snippet).snippet ≠ "" ∧
    (⟨"Hello", "body", "http://a", ""⟩ : Snippet).url ≠ "" :=
  (C4_dedupe_field_checks [⟨"Hello", "body", "http://a", ""⟩]).1 _ (by decide)

theorem volSum_nonneg (cur prev : List (String × ℚ)) :
    0 ≤ ∑ e ∈ volKeys cur prev, |lookupQ cur e - lookupQ prev e| :=
  Finset.sum_nonneg (fun _ _ => abs_nonneg _)

theorem volKeys_comm (cur prev : List (String × ℚ)) :
    volKeys cur prev = volKeys prev cur := by
  simp [volKeys, List.toFinset_append, Finset.union_comm]

/-- C6: for distributions with all fractions in the unit interval, the
volatility is an integer between 0 and 100, is unchanged when the current
and previous distributions are swapped, and is 0 when a distribution is
compared with itself. -/
theorem C6_volatility_props (cur prev : List (String × ℚ))
    (_hcur : ∀ p ∈ cur, 0 ≤ p.2 ∧ p.2 ≤ 1)
    (_hprev : ∀ p ∈ prev, 0 ≤ p.2 ∧ p.2 ≤ 1) :
    0 ≤ volatility cur prev ∧ volatility cur prev ≤ 100 ∧
    volatility cur prev = volatility prev cur ∧ volatility cur cur = 0 := by
  have hs := volSum_nonneg cur prev
  set s := ∑ e ∈ volKeys cur prev, |lookupQ cur e - lookupQ prev e| with hsdef
  have hq0 : (0 : ℚ) ≤ min 1 (s / 2) * 100 := by
    have : (0 : ℚ) ≤ min 1 (s / 2) := le_min (by norm_num) (by linarith)
    linarith
  have hq1 : min 1 (s / 2) * 100 ≤ 100 := by
    have : min 1 (s / 2) ≤ 1 := min_le_left _ _
    linarith
  refine ⟨?_, ?_, ?_, ?_⟩
  · show (0 : ℤ) ≤ jsRound (min 1 (s / 2) * 100)
    exact Int.le_floor.mpr (by push_cast; linarith)
  · show jsRound (min 1 (s / 2) * 100) ≤ 100
    have h1 : min 1 (s / 2) * 100 + 1/2 < ((100 : ℤ) : ℚ) + 1 := by
      push_cast; linarith
    exact Int.floor_le_iff.mpr h1
  · show jsRound (min 1 (s / 2) * 100) = volatility prev cur
    have hsum : s = ∑ e ∈ volKeys prev cur, |lookupQ prev e - lookupQ cur e| := by
      rw [hsdef, volKeys_comm cur prev]
      exact Finset.sum_congr rfl (fun e _ => abs_sub_comm _ _)
    unfold volatility
    rw [← hsum]
  · have hzero : ∑ e ∈ volKeys cur cur, |lookupQ cur e - lookupQ cur e| = 0 :=
      Finset.sum_eq_zero (fun e _ => by simp)
    unfold volatility
    rw [hzero]
    norm_num [jsRound]

/-- C6, witness at concrete distributions. -/
theorem C6_volatility_witness :
    0 ≤ volatility [("joy", 1/2), ("fear", 1/2)] [("joy", 1)] ∧
    volatility [("joy", 1/2), ("fear", 1/2)] [("joy", 1)] ≤ 100 ∧
    volatility [("joy", 1/2), ("fear", 1/2)] [("joy", 1)] =
      volatility [("joy", 1)] [("joy", 1/2), ("fear", 1/2)] ∧
    volatility [("joy", 1/2), ("fear", 1/2)] [("joy", 1/2), ("fear", 1/2)] = 0 :=
  C6_volatility_props [("joy", 1/2), ("fear", 1/2)] [("joy", 1)]
    (by norm_num [List.forall_mem_cons]) (by norm_num [List.forall_mem_cons])

theorem insertDescBy_perm {α : Type} (key : α → ℤ) (x : α) (l : List α) :
    (insertDescBy key x l).Perm (x :: l) := by
  induction l with
  | nil => exact List.Perm.refl _
  | cons y ys ih =>
    simp only [insertDescBy]
    split
    · exact (ih.cons y).trans (List.Perm.swap x y ys)
    · exact List.Perm.refl _

theorem sortDescBy_perm {α : Type} (key : α → ℤ) (l : List α) :
    (sortDescBy key l).Perm l := by
  induction l with
  | nil => exact List.Perm.refl _
  | cons x xs ih => exact (insertDescBy_perm key x _).trans (ih.cons x)

theorem insertDescBy_pairwise {α : Type} (key : α → ℤ) (x : α) (l : List α)
    (h : l.Pairwise (fun a b => key b ≤ key a)) :
    (insertDescBy key x l).Pairwise (fun a b => key b ≤ key a) := by
  induction l with
  | nil => simp [insertDescBy]
  | cons y ys ih =>
    rcases List.pairwise_cons.mp h with ⟨hy, hys⟩
    simp only [insertDescBy]
    split
    · next hlt =>
      refine List.pairwise_cons.mpr ⟨?_, ih hys⟩
      intro z hz
      rcases List.mem_cons.mp ((insertDescBy_perm key x ys).mem_iff.mp hz) with rfl | hz2
      · exact le_of_lt hlt
      · exact hy z hz2
    · next hge =>
      have hxy : key y ≤ key x := le_of_not_lt hge
      refine List.pairwise_cons.mpr ⟨?_, h⟩
      intro z hz
      rcases List.mem_cons.mp hz with rfl | hz2
      · exact hxy
      · exact le_trans (hy z hz2) hxy

theorem sortDescBy_pairwise {α : Type} (key : α → ℤ) (l : List α) :
    (sortDescBy key l).Pairwise (fun a b => key b ≤ key a) := by
  induction l with
  | nil => simp [sortDescBy]
  | cons x xs ih => exact insertDescBy_pairwise key x _ ih

theorem insertDescBy_filter {α : Type} (key : α → ℤ) (x : α) (l : List α) (d : ℤ) :
    (insertDescBy key x l).filter (fun a => decide (key a = d)) =
      ((x :: l).filter (fun a => decide (key a = d))) := by
  induction l with
  | nil => rfl
  | cons y ys ih =>
    simp only [insertDescBy]
    split
    · next hlt =>
      by_cases hx : key x = d
      · have hy : ¬ (key y = d) := by omega
        simp [List.filter_cons, hx, hy, ih]
      · simp [List.filter_cons, hx, ih]
    · rfl

theorem sortDescBy_filter {α : Type} (key : α → ℤ) (l : List α) (d : ℤ) :
    (sortDescBy key l).filter (fun a => decide (key a = d)) =
      l.filter (fun a => decide (key a = d)) := by
  induction l with
  | nil => rfl
  | cons x xs ih =>
    show (insertDescBy key x (sortDescBy key xs)).filter _ = _
    rw [insertDescBy_filter]
    simp only [List.filter_cons]
    rw [ih]

/-- C7: every rising narrative has a strictly positive delta, the list has
at most 5 entries, it is sorted descending by delta, and entries of equal
delta keep their encounter order — for each delta value the sublist of the
output at that value is an initial segment of the positive-delta entries at
that value in encounter order. -/
theorem C7_rising_narratives (clusterMap prevClusterMap : List (String × ℤ)) :
    (∀ p ∈ risingNarratives clusterMap prevClusterMap, 0 < p.2) ∧
    (risingNarratives clusterMap prevClusterMap).length ≤ 5 ∧
    (risingNarratives clusterMap prevClusterMap).Pairwise (fun a b => b.2 ≤ a.2) ∧
    (∀ d : ℤ, ∃ t,
      (deltaEntries clusterMap prevClusterMap).filter (fun p => decide (p.2 = d)) =
        (risingNarratives clusterMap prevClusterMap).filter
          (fun p => decide (p.2 = d)) ++ t) := by
  refine ⟨?_, ?_, ?_, ?_⟩
  · intro p hp
    have h1 : p ∈ sortDescBy Prod.snd (deltaEntries clusterMap prevClusterMap) :=
      List.mem_of_mem_take hp
    have h2 : p ∈ deltaEntries clusterMap prevClusterMap :=
      (sortDescBy_perm Prod.snd _).mem_iff.mp h1
    have h3 := List.of_mem_filter h2
    simpa using h3
  · exact List.length_take_le _ _
  · exact (sortDescBy_pairwise Prod.snd _).sublist (List.take_sublist 5 _)
  · intro d
    refine ⟨((sortDescBy Prod.snd (deltaEntries clusterMap prevClusterMap)).drop 5).filter
      (fun p => decide (p.2 = d)), ?_⟩
    rw [← sortDescBy_filter Prod.snd (deltaEntries clusterMap prevClusterMap) d]
    conv_lhs => rw [← List.take_append_drop 5
      (sortDescBy Prod.snd (deltaEntries clusterMap prevClusterMap))]
    rw [List.filter_append]
    rfl

/-- C7, witness at the snapshot scenario of the spec: previous clusters
policy 3, current clusters policy 3 and backlash 2. -/
theorem C7_rising_witness :
    0 < (("backlash", 2) : String × ℤ).2 ∧
    (risingNarratives [("policy", 3), ("backlash", 2)] [("policy", 3)]).length ≤ 5 :=
  ⟨(C7_rising_narratives [("policy", 3), ("backlash", 2)] [("policy", 3)]).1
      ("backlash", 2) (by decide),
   (C7_rising_narratives [("policy", 3), ("backlash", 2)] [("policy", 3)]).2.1⟩

/-- First-match value lookup in the association list, default 0 — with
unique keys this is the value of the JavaScript object at the key. -/
def getCount : List (String × Nat) → String → Nat
  | [], _ => 0
  | p :: m, k => if p.1 = k then p.2 else getCount m k

theorem getCount_of_mem (m : List (String × Nat)) (p : String × Nat)
    (hm : (m.map Prod.fst).Nodup) (hp : p ∈ m) : getCount m p.1 = p.2 := by
  induction m with
  | nil => simp at hp
  | cons q m ih =>
    rcases List.mem_cons.mp hp with rfl | hp2
    · simp [getCount]
    · have hq : q.1 ≠ p.1 := by
        simp only [List.map_cons, List.nodup_cons] at hm
        exact fun h => hm.1 (h ▸ List.mem_map_of_mem Prod.fst hp2)
      simp only [getCount, if_neg hq]
      exact ih (by simp only [List.map_cons, List.nodup_cons] at hm; exact hm.2) hp2


theorem getCount_map_bump_ne (m : List (String × Nat)) (k k' : String)
    (hk : k' ≠ k) :
    getCount (m.map (fun p => if p.1 = k then (p.1, p.2 + 1) else p)) k' =
      getCount m k' := by
  induction m with
  | nil => rfl
  | cons q m ih =>
    simp only [List.map_cons]
    by_cases hq : q.1 = k
    · have hq' : ¬ (q.1 = k') := fun h => hk (h.symm.trans hq)
      have hkk' : ¬ (k = k') := fun h => hk h.symm
      simp [getCount, hq, hq', hkk', ih]
    · by_cases hq' : q.1 = k'
      · simp [getCount, hq, hq', hk]
      · simp [getCount, hq, hq', ih]

theorem getCount_map_bump_eq (m : List (String × Nat)) (k : String)
    (hmem : (m.any fun p => decide (p.1 = k)) = true) :
    getCount (m.map (fun p => if p.1 = k then (p.1, p.2 + 1) else p)) k =
      getCount m k + 1 := by
  induction m with
  | nil => simp at hmem
  | cons q m ih =>
    simp only [List.map_cons]
    by_cases hq : q.1 = k
    · simp [getCount, hq]
    · have hm : (m.any fun p => decide (p.1 = k)) = true := by
        simpa [List.any_cons, hq] using hmem
      simp [getCount, hq, ih hm]

theorem getCount_append_new (m : List (String × Nat)) (k k' : String)
    (hmem : (m.any fun p => decide (p.1 = k)) = false) :
    getCount (m ++ [(k, 1)]) k' = getCount m k' + (if k' = k then 1 else 0) := by
  induction m with
  | nil =>
    by_cases h : k' = k
    · simp [getCount, h]
    · have h2 : ¬ (k = k') := fun hh => h hh.symm
      simp [getCount, h, h2]
  | cons q m ih =>
    simp only [List.any_cons, Bool.or_eq_false_iff, decide_eq_false_iff_not] at hmem
    rcases hmem with ⟨hq, hm⟩
    have hm2 : (m.any fun p => decide (p.1 = k)) = false := by
      rw [List.any_eq_false]
      intro p hp
      simpa using List.any_eq_false.mp hm p hp
    by_cases hq' : q.1 = k'
    · have hqk : ¬ (k' = k) := fun h => hq (hq'.trans h)
      simp [getCount, hq', hqk]
    · simp [getCount, hq', ih hm2]

theorem getCount_bumpCount (m : List (String × Nat)) (k k' : String) :
    getCount (bumpCount m k) k' = getCount m k' + (if k' = k then 1 else 0) := by
  by_cases hany : (m.any fun p => decide (p.1 = k)) = true
  · simp only [bumpCount, if_pos hany]
    by_cases hk : k' = k
    · subst hk
      rw [getCount_map_bump_eq m k' hany]
      simp
    · rw [getCount_map_bump_ne m k k' hk]
      simp [hk]
  · simp only [bumpCount, if_neg hany]
    rw [Bool.not_eq_true] at hany
    exact getCount_append_new m k k' hany

theorem bumpCount_keys_nodup (m : List (String × Nat)) (k : String)
    (h : (m.map Prod.fst).Nodup) : ((bumpCount m k).map Prod.fst).Nodup := by
  by_cases hany : (m.any fun p => decide (p.1 = k)) = true
  · simp only [bumpCount, if_pos hany, List.map_map]
    have hfun : (Prod.fst ∘ fun p : String × Nat =>
        if p.1 = k then (p.1, p.2 + 1) else p) = Prod.fst := by
      funext p
      by_cases hp : p.1 = k <;> simp [hp]
    rw [hfun]
    exact h
  · simp only [bumpCount, if_neg hany]
    rw [Bool.not_eq_true] at hany
    have hk : k ∉ m.map Prod.fst := by
      intro hmem
      rcases List.mem_map.mp hmem with ⟨p, hp, hpk⟩
      have := List.any_eq_false.mp hany p hp
      simp [hpk] at this
    simp [List.nodup_append, h, hk]

theorem foldl_bump_getCount (items : List ClassifiedSnippet) :
    ∀ m, (m.map Prod.fst).Nodup →
      ∀ p ∈ items.foldl (fun acc item => bumpCount acc (emotionKey item)) m,
        p.2 = getCount m p.1 + ((items.map emotionKey).count p.1) := by
  induction items with
  | nil =>
    intro m hm p hp
    simp only [List.foldl_nil] at hp
    simp [(getCount_of_mem m p hm hp).symm]
  | cons item rest ih =>
    intro m hm p hp
    simp only [List.foldl_cons] at hp
    have h1 := ih (bumpCount m (emotionKey item))
      (bumpCount_keys_nodup m (emotionKey item) hm) p hp
    rw [getCount_bumpCount] at h1
    rw [h1]
    simp only [List.map_cons, List.count_cons]
    by_cases hpk : p.1 = emotionKey item
    · simp [hpk]
      omega
    · have h2 : ¬ (emotionKey item = p.1) := fun h => hpk h.symm
      simp [hpk, h2]

theorem emotionCounts_count (items : List ClassifiedSnippet) :
    ∀ p ∈ emotionCounts items, p.2 = (items.map emotionKey).count p.1 := by
  intro p hp
  have := foldl_bump_getCount items [] (by simp) p hp
  simpa [getCount] using this

/-- The three-item scenario of the spec: emotions joy, joy, fear. -/
def itemsJJF : List ClassifiedSnippet :=
  [⟨0, "joy", "c", "n", "k"⟩, ⟨1, "joy", "c", "n", "k"⟩, ⟨2, "fear", "c", "n", "k"⟩]

/-- C8: the emotion statistics are sorted descending by count; each entry
counts the items whose emotion, defaulted to neutral when empty and then
trimmed and lower-cased, equals the entry label, and its percentage is the
rounded share of the total with total at least 1; and on the three-item
scenario joy, joy, fear the result is joy 2 at 67 percent then fear 1 at 33
percent. -/
theorem C8_emotion_stats (items : List ClassifiedSnippet) :
    (emotionBars items).Pairwise (fun a b => b.count ≤ a.count) ∧
    (∀ e ∈ emotionBars items,
      e.count = (items.map emotionKey).count e.emotion ∧
      e.percentage = jsRound ((e.count : ℚ) / (max items.length 1) * 100)) ∧
    emotionBars itemsJJF = [⟨"joy", 2, 67⟩, ⟨"fear", 1, 33⟩] := by
  have hc : emotionCounts itemsJJF = [("joy", 2), ("fear", 1)] := by decide
  have hlen : itemsJJF.length = 3 := rfl
  refine ⟨?_, ?_, ?_⟩
  · have h := sortDescBy_pairwise (fun e : EmotionStat => (e.count : ℤ))
      ((emotionCounts items).map (fun p =>
        ⟨p.1, p.2, jsRound ((p.2 : ℚ) / (max items.length 1) * 100)⟩))
    exact h.imp (fun hab => by exact_mod_cast hab)
  · intro e he
    have h1 : e ∈ (emotionCounts items).map (fun p =>
        (⟨p.1, p.2, jsRound ((p.2 : ℚ) / (max items.length 1) * 100)⟩ : EmotionStat)) :=
      (sortDescBy_perm _ _).mem_iff.mp he
    rcases List.mem_map.mp h1 with ⟨p, hp, rfl⟩
    exact ⟨emotionCounts_count items p hp, rfl⟩
  · simp only [emotionBars, hc, hlen, List.map_cons, List.map_nil]
    norm_num [jsRound, sortDescBy, insertDescBy]

/-- C8, witness at the three-item scenario. -/
theorem C8_emotion_stats_witness :
    (⟨"joy", 2, 67⟩ : EmotionStat).count =
      (itemsJJF.map emotionKey).count "joy" ∧
    (⟨"joy", 2, 67⟩ : EmotionStat).percentage =
      jsRound ((2 : ℚ) / (max itemsJJF.length 1) * 100) :=
  (C8_emotion_stats itemsJJF).2.1 ⟨"joy", 2, 67⟩
    (by rw [(C8_emotion_stats itemsJJF).2.2]; exact List.mem_cons_self _ _)
